import Mathlib

/-!
Verification of the Q# state-preparation synthesizer
(`library/std/unstable_state_preparation.qs`).

The Q# operations are embedded shallowly as pure Lean functions that return
the emitted gate sequence, with `Except String` modelling the Q# `fail`
statement (an error aborts the whole computation, so an `.error` result
carries no partially emitted gates).  Double-precision arithmetic is
embedded as exact arithmetic over a linear ordered field; the trigonometric
primitives of the standard math library (`Sqrt`, `ArcTan2`, `PI`) are
packaged in the `QMath` class and instantiated at `ℝ` with `Real.sqrt` and
`Complex.arg`.  Qubits are embedded as natural-number handles.
-/

/-- Math primitives used by the synthesizer.  The numeric primitives
(`Sqrt`, `ArcTan2`, `PI` of the repository's standard math library, which is
not part of the verified sources) are assumed correct by the specification;
they are packaged as a class over the coefficient field so that the
synthesizer definitions below stay computable. -/
class QMath (α : Type) extends LinearOrderedField α where
  sqrt : α → α
  arcTan2 : α → α → α
  pi : α

/-- Modelled from the spec: the real math primitives.  `atan2(y, x)` is the
angle of the point `(x, y)`, i.e. `Complex.arg (x + y·i)`, which satisfies
`atan2(0, 0) = 0`. -/
noncomputable instance realQMath : QMath ℝ where
  sqrt := Real.sqrt
  arcTan2 := fun y x => Complex.arg ⟨x, y⟩
  pi := Real.pi

/-- A complex amplitude in polar representation: `ComplexPolar(magnitude, argument)`. -/
structure ComplexPolar (α : Type) where
  magnitude : α
  argument : α

/-- An emitted elementary gate.  Qubits are natural-number handles; `expZ`
and `expI` are the `Exp([PauliZ], θ, [q])` / `Exp([PauliI], θ, qs)` rotation
gates, `cnot c t` is `CNOT(c, t)`. -/
inductive Gate (α : Type) where
  | h (target : ℕ)
  | s (target : ℕ)
  | sAdj (target : ℕ)
  | cnot (control : ℕ) (target : ℕ)
  | expZ (theta : α) (target : ℕ)
  | expI (theta : α) (qubits : List ℕ)

/-- A Q# `Range` with step `1`.  Every range built by the synthesizer
(`1 .. nQubits-1`, `1 .. 0`, and `(start+1) .. step .. end` with step `1`)
has step `1` and non-negative bounds, so the step field is elided and the
bounds live in `ℕ`. -/
structure QRange where
  start : ℕ
  stop : ℕ

/-- Modelled from the spec: `IsRangeEmpty` for a step-1 range. -/
def IsRangeEmpty (r : QRange) : Bool :=
  r.stop < r.start

/-- Number of elements of a step-1 range (`RangeSize`). -/
def rangeLength (r : QRange) : ℕ :=
  r.stop + 1 - r.start

/-- Modelled from the spec: array slicing `register[range]` for a step-1 range. -/
def sliceRange (register : List ℕ) (r : QRange) : List ℕ :=
  (List.range' r.start (rangeLength r)).map fun i => register.getD i 0

/-- The Q# `Pauli` enumeration. -/
inductive Pauli where
  | I
  | X
  | Y
  | Z

/-- Modelled from the spec: `AbsD` of the standard math library. -/
def AbsD {α : Type} [QMath α] (a : α) : α :=
  |a|

/-- Modelled from the spec: `AbsComplexPolar` returns the magnitude. -/
def AbsComplexPolar {α : Type} (c : ComplexPolar α) : α :=
  c.magnitude

/-- Modelled from the spec: `ArgComplexPolar` returns the argument. -/
def ArgComplexPolar {α : Type} (c : ComplexPolar α) : α :=
  c.argument

/-- Modelled from the spec: `Most` returns all array elements except the last. -/
def Most {α : Type} (xs : List α) : List α :=
  xs.dropLast

/-- Modelled from the spec: `Tail` returns the last array element (only
applied to non-empty arrays in the synthesizer; `0` is a dummy default). -/
def TailD (xs : List ℕ) : ℕ :=
  xs.getLastD 0

/-- Modelled from the spec: `Padded(n, d, xs)` of the standard arrays
library (not under the verified sources).  It returns an array of exactly
`|n|` elements, padding with `d` at the head when `n ≥ 0` and at the tail
when `n < 0`, and fails with an invalid-argument error when the input is
already longer than `|n|`. -/
def Padded {α : Type} (n : ℤ) (d : α) (xs : List α) : Except String (List α) :=
  if n.natAbs < xs.length then
    .error "Padded -- Specified output array length must be at least as long as input array length."
  else if 0 ≤ n then
    .ok (List.replicate (n.natAbs - xs.length) d ++ xs)
  else
    .ok (xs ++ List.replicate (n.natAbs - xs.length) d)

/-- Modelled from the spec: the adjoint of a single gate negates its
rotation angle (`S` and `S⁻¹` swap, `H` and `CNOT` are self-inverse). -/
def adjointGate {α : Type} [QMath α] : Gate α → Gate α
  | .h t => .h t
  | .s t => .sAdj t
  | .sAdj t => .s t
  | .cnot c t => .cnot c t
  | .expZ θ t => .expZ (-θ) t
  | .expI θ qs => .expI (-θ) qs

/-- Modelled from the spec: `Adjoint` of a generated gate sequence reverses
the gate order and replaces every gate by its adjoint. -/
def adjointGates {α : Type} [QMath α] (gs : List (Gate α)) : List (Gate α) :=
  (gs.map adjointGate).reverse

/-- Modelled from the spec: the Q# `within outer apply body` block emits the
outer gates, then the body, then the adjoint of the outer gates — the
closing gates are emitted even when the body emitted nothing. -/
def withinApply {α : Type} [QMath α] (outer body : List (Gate α)) : List (Gate α) :=
  outer ++ body ++ adjointGates outer

/-- Modelled from the spec: conversion of a real coefficient `a` to a polar
amplitude (`ComplexAsComplexPolar(Complex(a, 0.0))` in the source, via the
standard convert library): magnitude `|a|`, phase `0` if `a ≥ 0` else `π`. -/
def fromRealAmplitude {α : Type} [QMath α] (a : α) : ComplexPolar α :=
  ⟨|a|, if 0 ≤ a then 0 else QMath.pi⟩

/-- `MultiplexZCoefficients` (source lines 411-422): sum/difference split.
`coefficients0[i] = (c[i] + c[i+m]) / 2`, `coefficients1[i] = (c[i] - c[i+m]) / 2`
for `m = len / 2` (`0.5 *` in the source is written `(1/2) *` here). -/
def MultiplexZCoefficients {α : Type} [QMath α] (coefficients : List α) :
    List α × List α :=
  let newCoefficientsLength := coefficients.length / 2
  ((List.range newCoefficientsLength).map fun idxCoeff =>
      (1 / 2 : α) * (coefficients.getD idxCoeff 0 +
        coefficients.getD (idxCoeff + newCoefficientsLength) 0),
   (List.range newCoefficientsLength).map fun idxCoeff =>
      (1 / 2 : α) * (coefficients.getD idxCoeff 0 -
        coefficients.getD (idxCoeff + newCoefficientsLength) 0))

/-- `AnyOutsideToleranceD` (source lines 424-434): true iff some
`|coefficient| >= tolerance` (note the non-strict comparison). -/
def AnyOutsideToleranceD {α : Type} [QMath α] (tolerance : α)
    (coefficients : List α) : Bool :=
  coefficients.any fun coefficient => decide (tolerance ≤ AbsD coefficient)

/-- `AnyOutsideToleranceCP` (source lines 436-443): true iff some
`AbsComplexPolar(coefficient) > tolerance` (strict comparison). -/
def AnyOutsideToleranceCP {α : Type} [QMath α] (tolerance : α)
    (coefficients : List (ComplexPolar α)) : Bool :=
  coefficients.any fun coefficient => decide (tolerance < AbsComplexPolar coefficient)

/-- `BlochSphereCoordinates` (source lines 255-265). -/
def BlochSphereCoordinates {α : Type} [QMath α] (a0 a1 : ComplexPolar α) :
    ComplexPolar α × α × α :=
  let abs0 := AbsComplexPolar a0
  let abs1 := AbsComplexPolar a1
  let arg0 := ArgComplexPolar a0
  let arg1 := ArgComplexPolar a1
  let r := QMath.sqrt (abs0 * abs0 + abs1 * abs1)
  let t := (1 / 2 : α) * (arg0 + arg1)
  let phi := arg1 - arg0
  let theta := 2 * QMath.arcTan2 abs1 abs0
  (⟨r, t⟩, phi, theta)

/-- `StatePreparationSBMComputeCoefficients` (source lines 225-238): maps
each consecutive amplitude pair through `BlochSphereCoordinates`, returning
`(disentanglingY, disentanglingZ, newCoefficients)` with
`disentanglingY[i] = 0.5 * theta`, `disentanglingZ[i] = 0.5 * phi`.
The source fills the three arrays in one loop; the three maps below compute
the same entries from the same pure pair computation. -/
def StatePreparationSBMComputeCoefficients {α : Type} [QMath α]
    (coefficients : List (ComplexPolar α)) :
    List α × List α × List (ComplexPolar α) :=
  let m := coefficients.length / 2
  ((List.range m).map fun i =>
      (1 / 2 : α) * (BlochSphereCoordinates (coefficients.getD (2 * i) ⟨0, 0⟩)
        (coefficients.getD (2 * i + 1) ⟨0, 0⟩)).2.2,
   (List.range m).map fun i =>
      (1 / 2 : α) * (BlochSphereCoordinates (coefficients.getD (2 * i) ⟨0, 0⟩)
        (coefficients.getD (2 * i + 1) ⟨0, 0⟩)).2.1,
   (List.range m).map fun i =>
      (BlochSphereCoordinates (coefficients.getD (2 * i) ⟨0, 0⟩)
        (coefficients.getD (2 * i + 1) ⟨0, 0⟩)).1)

/-- `ApproximatelyMultiplexZ` (source lines 365-407, body specialization;
the `controlled` specialization is not exercised by the verified entry
points).  The source's termination test `Length(coefficientsPadded) == 1`
is embedded as the match on `control`: after a successful pad the length is
exactly `2 ^ control.length`, which is `1` iff `control = []` (see
`Padded_ok_length` and `multiplexZ_length_test` below). -/
def ApproximatelyMultiplexZ {α : Type} [QMath α] (tolerance : α)
    (coefficients : List α) (control : List ℕ) (target : ℕ) :
    Except String (List (Gate α)) :=
  match Padded (-(2 ^ control.length : ℤ)) 0 coefficients with
  | .error e => .error e
  | .ok coefficientsPadded =>
    match control with
    | [] =>
      if tolerance < AbsD (coefficientsPadded.getD 0 0) then
        .ok [Gate.expZ (coefficientsPadded.getD 0 0) target]
      else
        .ok []
    | c :: cs =>
      match ApproximatelyMultiplexZ tolerance
          (MultiplexZCoefficients coefficientsPadded).1 (Most (c :: cs)) target with
      | .error e => .error e
      | .ok g0 =>
        if AnyOutsideToleranceD tolerance (MultiplexZCoefficients coefficientsPadded).2 then
          match ApproximatelyMultiplexZ tolerance
              (MultiplexZCoefficients coefficientsPadded).2 (Most (c :: cs)) target with
          | .error e => .error e
          | .ok g1 =>
            .ok (g0 ++ withinApply [Gate.cnot (TailD (c :: cs)) target] g1)
        else
          .ok g0
termination_by control.length
decreasing_by
  all_goals simp [Most, List.length_dropLast]

/-- `ApproximatelyApplyDiagonalUnitary` (source lines 303-324).  The
source's `IsEmpty(qubits)` test is the `[]` case of the match; the
termination test `Length(coefficientsPadded) == 2` is kept verbatim. -/
def ApproximatelyApplyDiagonalUnitary {α : Type} [QMath α] (tolerance : α)
    (coefficients : List α) (qubits : List ℕ) :
    Except String (List (Gate α)) :=
  match qubits with
  | [] =>
    .error "operation ApplyDiagonalUnitary -- Number of qubits must be greater than 0."
  | q :: qs =>
    match Padded (-(2 ^ (q :: qs).length : ℤ)) 0 coefficients with
    | .error e => .error e
    | .ok coefficientsPadded =>
      match ApproximatelyMultiplexZ tolerance
          (MultiplexZCoefficients coefficientsPadded).2 (Most (q :: qs))
          (TailD (q :: qs)) with
      | .error e => .error e
      | .ok gz =>
        if coefficientsPadded.length == 2 then
          if tolerance < AbsD ((MultiplexZCoefficients coefficientsPadded).1.getD 0 0) then
            .ok (gz ++ [Gate.expI (1 * (MultiplexZCoefficients coefficientsPadded).1.getD 0 0) (q :: qs)])
          else
            .ok gz
        else
          match ApproximatelyApplyDiagonalUnitary tolerance
              (MultiplexZCoefficients coefficientsPadded).1 (Most (q :: qs)) with
          | .error e => .error e
          | .ok gd => .ok (gz ++ gd)
termination_by qubits.length
decreasing_by
  all_goals simp [Most, List.length_dropLast]

/-- Recursion measure for `ApproximatelyMultiplexPauli`: the `X` case
recurses as `Z` and the `Y` case recurses as `X`. -/
def pauliWeight : Pauli → ℕ
  | .Z => 0
  | .X => 1
  | .Y => 2
  | .I => 0

/-- `ApproximatelyMultiplexPauli` (source lines 196-221).  The source's
`if pauli == PauliZ ... elif ...` chain over the closed `Pauli` enumeration
is embedded as a match; the final `else fail` branch is unreachable because
all four constructors are covered. -/
def ApproximatelyMultiplexPauli {α : Type} [QMath α] (tolerance : α)
    (coefficients : List α) (pauli : Pauli) (control : List ℕ) (target : ℕ) :
    Except String (List (Gate α)) :=
  match pauli with
  | .Z =>
    ApproximatelyMultiplexZ tolerance coefficients control target
  | .X =>
    match ApproximatelyMultiplexPauli tolerance coefficients .Z control target with
    | .error e => .error e
    | .ok g => .ok (withinApply [Gate.h target] g)
  | .Y =>
    match ApproximatelyMultiplexPauli tolerance coefficients .X control target with
    | .error e => .error e
    | .ok g => .ok (withinApply [Gate.sAdj target] g)
  | .I =>
    ApproximatelyApplyDiagonalUnitary tolerance coefficients control
termination_by pauliWeight pauli
decreasing_by
  all_goals simp [pauliWeight]

/-- `ApproximatelyUnprepareArbitraryState` (source lines 127-156). -/
def ApproximatelyUnprepareArbitraryState {α : Type} [QMath α] (tolerance : α)
    (coefficients : List (ComplexPolar α)) (rngControl : QRange)
    (idxTarget : ℕ) (register : List ℕ) :
    Except String (List (Gate α)) :=
  let yzc := StatePreparationSBMComputeCoefficients coefficients
  let gZstep :=
    if AnyOutsideToleranceD tolerance yzc.2.1 then
      ApproximatelyMultiplexPauli tolerance yzc.2.1 .Z
        (sliceRange register rngControl) (register.getD idxTarget 0)
    else
      .ok []
  match gZstep with
  | .error e => .error e
  | .ok gZ =>
    let gYstep :=
      if AnyOutsideToleranceD tolerance yzc.1 then
        ApproximatelyMultiplexPauli tolerance yzc.1 .Y
          (sliceRange register rngControl) (register.getD idxTarget 0)
      else
        .ok []
    match gYstep with
    | .error e => .error e
    | .ok gY =>
      match hr : IsRangeEmpty rngControl with
      | true =>
        let a := yzc.2.2.getD 0 ⟨0, 0⟩
        if tolerance < AbsD a.argument then
          .ok (gZ ++ gY ++ [Gate.expI (-1 * a.argument) [register.getD idxTarget 0]])
        else
          .ok (gZ ++ gY)
      | false =>
        if AnyOutsideToleranceCP tolerance yzc.2.2 then
          match ApproximatelyUnprepareArbitraryState tolerance yzc.2.2
              ⟨rngControl.start + 1, rngControl.stop⟩ rngControl.start register with
          | .error e => .error e
          | .ok gR => .ok (gZ ++ gY ++ gR)
        else
          .ok (gZ ++ gY)
termination_by rangeLength rngControl
decreasing_by
  simp only [IsRangeEmpty, decide_eq_false_iff_not, not_lt] at hr
  simp only [rangeLength]
  omega

/-- `ApproximatelyPreparePureStateCP` (source lines 109-123).  The outer
`Adjoint` on the unprepare recursion is the reverse-and-negate combinator
`adjointGates`. -/
def ApproximatelyPreparePureStateCP {α : Type} [QMath α] (tolerance : α)
    (coefficients : List (ComplexPolar α)) (qubits : List ℕ) :
    Except String (List (Gate α)) :=
  let nQubits := qubits.length
  match Padded (-(2 ^ nQubits : ℤ)) ⟨0, 0⟩ coefficients with
  | .error e => .error e
  | .ok coefficientsPadded =>
    let idxTarget := 0
    let rngControl : QRange := if 1 < nQubits then ⟨1, nQubits - 1⟩ else ⟨1, 0⟩
    match ApproximatelyUnprepareArbitraryState tolerance coefficientsPadded
        rngControl idxTarget qubits with
    | .error e => .error e
    | .ok g => .ok (adjointGates g)

/-- `PreparePureStateD` (source lines 56-59). -/
def PreparePureStateD {α : Type} [QMath α] (coefficients : List α)
    (qubits : List ℕ) : Except String (List (Gate α)) :=
  ApproximatelyPreparePureStateCP 0 (coefficients.map fromRealAmplitude) qubits

/-- Fuel-indexed variant of `ApproximatelyMultiplexZ`: one unit of fuel per
recursive call, `none` when the fuel runs out.  Used to state that the
recursion depth is bounded by the number of control qubits. -/
def ApproximatelyMultiplexZFuel {α : Type} [QMath α] :
    ℕ → α → List α → List ℕ → ℕ → Option (Except String (List (Gate α)))
  | 0, _, _, _, _ => none
  | fuel + 1, tolerance, coefficients, control, target =>
    match Padded (-(2 ^ control.length : ℤ)) 0 coefficients with
    | .error e => some (.error e)
    | .ok coefficientsPadded =>
      match control with
      | [] =>
        if tolerance < AbsD (coefficientsPadded.getD 0 0) then
          some (.ok [Gate.expZ (coefficientsPadded.getD 0 0) target])
        else
          some (.ok [])
      | c :: cs =>
        match ApproximatelyMultiplexZFuel fuel tolerance
            (MultiplexZCoefficients coefficientsPadded).1 (Most (c :: cs)) target with
        | none => none
        | some (.error e) => some (.error e)
        | some (.ok g0) =>
          if AnyOutsideToleranceD tolerance (MultiplexZCoefficients coefficientsPadded).2 then
            match ApproximatelyMultiplexZFuel fuel tolerance
                (MultiplexZCoefficients coefficientsPadded).2 (Most (c :: cs)) target with
            | none => none
            | some (.error e) => some (.error e)
            | some (.ok g1) =>
              some (.ok (g0 ++ withinApply [Gate.cnot (TailD (c :: cs)) target] g1))
          else
            some (.ok g0)

/-- Fuel-indexed variant of `ApproximatelyApplyDiagonalUnitary` (one unit of
fuel per recursive call; the inner multiplex-Z step is the total function). -/
def ApproximatelyApplyDiagonalUnitaryFuel {α : Type} [QMath α] :
    ℕ → α → List α → List ℕ → Option (Except String (List (Gate α)))
  | 0, _, _, _ => none
  | _ + 1, _, _, [] =>
    some (.error "operation ApplyDiagonalUnitary -- Number of qubits must be greater than 0.")
  | fuel + 1, tolerance, coefficients, q :: qs =>
    match Padded (-(2 ^ (q :: qs).length : ℤ)) 0 coefficients with
    | .error e => some (.error e)
    | .ok coefficientsPadded =>
      match ApproximatelyMultiplexZ tolerance
          (MultiplexZCoefficients coefficientsPadded).2 (Most (q :: qs))
          (TailD (q :: qs)) with
      | .error e => some (.error e)
      | .ok gz =>
        if coefficientsPadded.length == 2 then
          if tolerance < AbsD ((MultiplexZCoefficients coefficientsPadded).1.getD 0 0) then
            some (.ok (gz ++ [Gate.expI (1 * (MultiplexZCoefficients coefficientsPadded).1.getD 0 0) (q :: qs)]))
          else
            some (.ok gz)
        else
          match ApproximatelyApplyDiagonalUnitaryFuel fuel tolerance
              (MultiplexZCoefficients coefficientsPadded).1 (Most (q :: qs)) with
          | none => none
          | some (.error e) => some (.error e)
          | some (.ok gd) => some (.ok (gz ++ gd))

/-- Fuel-indexed variant of `ApproximatelyUnprepareArbitraryState` (one unit
of fuel per recursive call; the multiplex steps are the total functions). -/
def ApproximatelyUnprepareArbitraryStateFuel {α : Type} [QMath α] :
    ℕ → α → List (ComplexPolar α) → QRange → ℕ → List ℕ →
      Option (Except String (List (Gate α)))
  | 0, _, _, _, _, _ => none
  | fuel + 1, tolerance, coefficients, rngControl, idxTarget, register =>
    let yzc := StatePreparationSBMComputeCoefficients coefficients
    let gZstep :=
      if AnyOutsideToleranceD tolerance yzc.2.1 then
        ApproximatelyMultiplexPauli tolerance yzc.2.1 .Z
          (sliceRange register rngControl) (register.getD idxTarget 0)
      else
        .ok []
    match gZstep with
    | .error e => some (.error e)
    | .ok gZ =>
      let gYstep :=
        if AnyOutsideToleranceD tolerance yzc.1 then
          ApproximatelyMultiplexPauli tolerance yzc.1 .Y
            (sliceRange register rngControl) (register.getD idxTarget 0)
        else
          .ok []
      match gYstep with
      | .error e => some (.error e)
      | .ok gY =>
        match IsRangeEmpty rngControl with
        | true =>
          let a := yzc.2.2.getD 0 ⟨0, 0⟩
          if tolerance < AbsD a.argument then
            some (.ok (gZ ++ gY ++ [Gate.expI (-1 * a.argument) [register.getD idxTarget 0]]))
          else
            some (.ok (gZ ++ gY))
        | false =>
          if AnyOutsideToleranceCP tolerance yzc.2.2 then
            match ApproximatelyUnprepareArbitraryStateFuel fuel tolerance yzc.2.2
                ⟨rngControl.start + 1, rngControl.stop⟩ rngControl.start register with
            | none => none
            | some (.error e) => some (.error e)
            | some (.ok gR) => some (.ok (gZ ++ gY ++ gR))
          else
            some (.ok (gZ ++ gY))

/-- True iff a synthesis result is a success (no `fail` was raised). -/
def isOkResult {ε β : Type} : Except ε β → Bool
  | .ok _ => true
  | .error _ => false

/-! Helper lemmas. -/

theorem Padded_ok_length {α : Type} {n : ℤ} {d : α} {xs ys : List α}
    (h : Padded n d xs = .ok ys) : ys.length = n.natAbs := by
  unfold Padded at h
  split at h
  · exact absurd h (by simp)
  · split at h
    · simp only [Except.ok.injEq] at h
      subst h
      simp only [List.length_append, List.length_replicate]
      omega
    · simp only [Except.ok.injEq] at h
      subst h
      simp only [List.length_append, List.length_replicate]
      omega

theorem Padded_eq_self {α : Type} (n : ℤ) (d : α) (xs : List α)
    (h : xs.length = n.natAbs) : Padded n d xs = .ok xs := by
  unfold Padded
  rw [if_neg (by omega)]
  split <;> simp [h]

theorem Padded_too_long {α : Type} (n : ℤ) (d : α) (xs : List α)
    (h : n.natAbs < xs.length) :
    Padded n d xs =
      .error "Padded -- Specified output array length must be at least as long as input array length." := by
  unfold Padded
  rw [if_pos h]

theorem anyOutsideToleranceD_iff {α : Type} [QMath α] (tolerance : α)
    (coefficients : List α) :
    AnyOutsideToleranceD tolerance coefficients = true ↔
      ∃ i, ∃ h : i < coefficients.length,
        tolerance ≤ |coefficients.get ⟨i, h⟩| := by
  unfold AnyOutsideToleranceD AbsD
  rw [List.any_eq_true]
  constructor
  · rintro ⟨x, hx, hpx⟩
    rw [List.mem_iff_get] at hx
    obtain ⟨⟨i, hi⟩, rfl⟩ := hx
    exact ⟨i, hi, of_decide_eq_true hpx⟩
  · rintro ⟨i, hi, hle⟩
    exact ⟨coefficients.get ⟨i, hi⟩, List.get_mem coefficients i hi,
      decide_eq_true hle⟩

theorem multiplexZCoefficients_fst_length {α : Type} [QMath α]
    (coefficients : List α) :
    (MultiplexZCoefficients coefficients).1.length = coefficients.length / 2 := by
  simp [MultiplexZCoefficients]

theorem multiplexZCoefficients_snd_length {α : Type} [QMath α]
    (coefficients : List α) :
    (MultiplexZCoefficients coefficients).2.length = coefficients.length / 2 := by
  simp [MultiplexZCoefficients]

theorem multiplexZCoefficients_fst_getD {α : Type} [QMath α]
    (coefficients : List α) (i : ℕ) (h : i < coefficients.length / 2) :
    (MultiplexZCoefficients coefficients).1.getD i 0 =
      (1 / 2 : α) * (coefficients.getD i 0 +
        coefficients.getD (i + coefficients.length / 2) 0) := by
  have hlen : i < ((List.range (coefficients.length / 2)).map fun idxCoeff =>
      (1 / 2 : α) * (coefficients.getD idxCoeff 0 +
        coefficients.getD (idxCoeff + coefficients.length / 2) 0)).length := by
    simpa using h
  unfold MultiplexZCoefficients
  rw [List.getD_eq_getElem _ _ hlen]
  simp

theorem multiplexZCoefficients_snd_getD {α : Type} [QMath α]
    (coefficients : List α) (i : ℕ) (h : i < coefficients.length / 2) :
    (MultiplexZCoefficients coefficients).2.getD i 0 =
      (1 / 2 : α) * (coefficients.getD i 0 -
        coefficients.getD (i + coefficients.length / 2) 0) := by
  have hlen : i < ((List.range (coefficients.length / 2)).map fun idxCoeff =>
      (1 / 2 : α) * (coefficients.getD idxCoeff 0 -
        coefficients.getD (idxCoeff + coefficients.length / 2) 0)).length := by
    simpa using h
  unfold MultiplexZCoefficients
  rw [List.getD_eq_getElem _ _ hlen]
  simp

theorem multiplexZ_leaf {α : Type} [QMath α] (tolerance a : α) (target : ℕ) :
    ApproximatelyMultiplexZ tolerance [a] [] target =
      .ok (if tolerance < |a| then [Gate.expZ a target] else []) := by
  unfold ApproximatelyMultiplexZ
  rw [Padded_eq_self _ _ _ (by simp)]
  simp only [AbsD, List.getD]
  split <;> simp_all

theorem multiplexZ_step {α : Type} [QMath α] (tolerance : α) (coefficients : List α)
    (control : List ℕ) (target : ℕ) (g0 g1 : List (Gate α))
    (hc : control ≠ []) (hlen : coefficients.length = 2 ^ control.length)
    (h0 : ApproximatelyMultiplexZ tolerance (MultiplexZCoefficients coefficients).1
      (Most control) target = .ok g0)
    (h1 : ApproximatelyMultiplexZ tolerance (MultiplexZCoefficients coefficients).2
      (Most control) target = .ok g1) :
    ApproximatelyMultiplexZ tolerance coefficients control target =
      .ok (g0 ++
        if AnyOutsideToleranceD tolerance (MultiplexZCoefficients coefficients).2 then
          withinApply [Gate.cnot (TailD control) target] g1
        else
          []) := by
  match control, hc with
  | c :: cs, _ =>
    unfold ApproximatelyMultiplexZ
    rw [Padded_eq_self _ _ _ (by simp [hlen, Int.natAbs_pow])]
    dsimp only
    rw [h0]
    dsimp only
    by_cases hA : AnyOutsideToleranceD tolerance (MultiplexZCoefficients coefficients).2 = true
    · rw [if_pos hA, if_pos hA, h1]
    · rw [if_neg hA, if_neg hA]
      simp

theorem multiplexPauli_Z {α : Type} [QMath α] (tolerance : α)
    (coefficients : List α) (control : List ℕ) (target : ℕ) :
    ApproximatelyMultiplexPauli tolerance coefficients .Z control target =
      ApproximatelyMultiplexZ tolerance coefficients control target := by
  unfold ApproximatelyMultiplexPauli
  rfl

theorem multiplexPauli_X {α : Type} [QMath α] (tolerance : α)
    (coefficients : List α) (control : List ℕ) (target : ℕ) :
    ApproximatelyMultiplexPauli tolerance coefficients .X control target =
      match ApproximatelyMultiplexZ tolerance coefficients control target with
      | .error e => .error e
      | .ok g => .ok (withinApply [Gate.h target] g) := by
  unfold ApproximatelyMultiplexPauli
  rw [multiplexPauli_Z]

theorem multiplexPauli_Y {α : Type} [QMath α] (tolerance : α)
    (coefficients : List α) (control : List ℕ) (target : ℕ) :
    ApproximatelyMultiplexPauli tolerance coefficients .Y control target =
      match ApproximatelyMultiplexZ tolerance coefficients control target with
      | .error e => .error e
      | .ok g => .ok (withinApply [Gate.sAdj target] (withinApply [Gate.h target] g)) := by
  unfold ApproximatelyMultiplexPauli
  rw [multiplexPauli_X]
  rcases ApproximatelyMultiplexZ tolerance coefficients control target with e | g <;> rfl

theorem arcTan2_zero_one : QMath.arcTan2 (0 : ℝ) 1 = 0 := by
  show Complex.arg ⟨1, 0⟩ = 0
  rw [show (⟨1, 0⟩ : ℂ) = 1 from rfl, Complex.arg_one]

theorem fromRealAmplitude_one : fromRealAmplitude (1 : ℝ) = ⟨1, 0⟩ := by
  unfold fromRealAmplitude
  norm_num

theorem fromRealAmplitude_zero : fromRealAmplitude (0 : ℝ) = ⟨0, 0⟩ := by
  unfold fromRealAmplitude
  norm_num

theorem bloch_one_zero :
    BlochSphereCoordinates (⟨1, 0⟩ : ComplexPolar ℝ) ⟨0, 0⟩ = (⟨1, 0⟩, 0, 0) := by
  unfold BlochSphereCoordinates AbsComplexPolar ArgComplexPolar
  have hs : QMath.sqrt (1 : ℝ) = 1 := by
    show Real.sqrt (1 : ℝ) = 1
    norm_num
  simp [hs, arcTan2_zero_one]

theorem sbm_one_zero :
    StatePreparationSBMComputeCoefficients [(⟨1, 0⟩ : ComplexPolar ℝ), ⟨0, 0⟩] =
      ([0], [0], [⟨1, 0⟩]) := by
  unfold StatePreparationSBMComputeCoefficients
  simp [List.range_succ, List.getD, bloch_one_zero]

theorem sliceRange_one_zero (register : List ℕ) : sliceRange register ⟨1, 0⟩ = [] := by
  simp [sliceRange, rangeLength]

theorem anyD_zero_tol0 : AnyOutsideToleranceD (0 : ℝ) [0] = true := by
  simp [AnyOutsideToleranceD, AbsD]

theorem anyD_zero_neg1 : AnyOutsideToleranceD (-1 : ℝ) [0] = true := by
  simp [AnyOutsideToleranceD, AbsD]

theorem mz_zero_tol0 : ApproximatelyMultiplexZ (0 : ℝ) [0] [] 0 = .ok [] := by
  rw [multiplexZ_leaf]
  simp

theorem mz_zero_neg1 :
    ApproximatelyMultiplexZ (-1 : ℝ) [0] [] 0 = .ok [Gate.expZ 0 0] := by
  rw [multiplexZ_leaf]
  norm_num

theorem mp_z_zero_tol0 : ApproximatelyMultiplexPauli (0 : ℝ) [0] .Z [] 0 = .ok [] := by
  rw [multiplexPauli_Z, mz_zero_tol0]

theorem mp_y_zero_tol0 :
    ApproximatelyMultiplexPauli (0 : ℝ) [0] .Y [] 0 =
      .ok [Gate.sAdj 0, Gate.h 0, Gate.h 0, Gate.s 0] := by
  rw [multiplexPauli_Y, mz_zero_tol0]
  simp [withinApply, adjointGates, adjointGate]

theorem mp_z_zero_neg1 :
    ApproximatelyMultiplexPauli (-1 : ℝ) [0] .Z [] 0 = .ok [Gate.expZ 0 0] := by
  rw [multiplexPauli_Z, mz_zero_neg1]

theorem mp_y_zero_neg1 :
    ApproximatelyMultiplexPauli (-1 : ℝ) [0] .Y [] 0 =
      .ok [Gate.sAdj 0, Gate.h 0, Gate.expZ 0 0, Gate.h 0, Gate.s 0] := by
  rw [multiplexPauli_Y, mz_zero_neg1]
  simp [withinApply, adjointGates, adjointGate]

theorem unprep_one_zero_tol0 :
    ApproximatelyUnprepareArbitraryState (0 : ℝ) [⟨1, 0⟩, ⟨0, 0⟩] ⟨1, 0⟩ 0 [0] =
      .ok [Gate.sAdj 0, Gate.h 0, Gate.h 0, Gate.s 0] := by
  unfold ApproximatelyUnprepareArbitraryState
  simp only [sbm_one_zero, sliceRange_one_zero, anyD_zero_tol0, List.getD]
  simp [mp_z_zero_tol0, mp_y_zero_tol0, IsRangeEmpty, AbsD]
  rfl

theorem unprep_one_zero_neg1 :
    ApproximatelyUnprepareArbitraryState (-1 : ℝ) [⟨1, 0⟩, ⟨0, 0⟩] ⟨1, 0⟩ 0 [0] =
      .ok [Gate.expZ 0 0, Gate.sAdj 0, Gate.h 0, Gate.expZ 0 0, Gate.h 0, Gate.s 0,
        Gate.expI 0 [0]] := by
  unfold ApproximatelyUnprepareArbitraryState
  simp only [sbm_one_zero, sliceRange_one_zero, anyD_zero_neg1, List.getD]
  simp [mp_z_zero_neg1, mp_y_zero_neg1, IsRangeEmpty, AbsD]
  rfl

theorem prepare_one_zero :
    PreparePureStateD [(1 : ℝ), 0] [0] =
      .ok [Gate.sAdj 0, Gate.h 0, Gate.h 0, Gate.s 0] := by
  unfold PreparePureStateD ApproximatelyPreparePureStateCP
  simp only [List.map, fromRealAmplitude_one, fromRealAmplitude_zero]
  rw [Padded_eq_self _ _ _ (by simp)]
  simp [unprep_one_zero_tol0, adjointGates, adjointGate]

theorem cp_one_zero_neg1 :
    ApproximatelyPreparePureStateCP (-1 : ℝ) [⟨1, 0⟩, ⟨0, 0⟩] [0] =
      .ok [Gate.expI 0 [0], Gate.sAdj 0, Gate.h 0, Gate.expZ 0 0, Gate.h 0, Gate.s 0,
        Gate.expZ 0 0] := by
  unfold ApproximatelyPreparePureStateCP
  dsimp only
  rw [Padded_eq_self _ _ _ (by simp)]
  simp [unprep_one_zero_neg1, adjointGates, adjointGate]

theorem multiplexZFuel_spec {α : Type} [QMath α] (fuel : ℕ) :
    ∀ (tolerance : α) (coefficients : List α) (control : List ℕ) (target : ℕ),
      control.length < fuel →
      ApproximatelyMultiplexZFuel fuel tolerance coefficients control target =
        some (ApproximatelyMultiplexZ tolerance coefficients control target) := by
  induction fuel with
  | zero =>
    intro _ _ control _ h
    exact absurd h (Nat.not_lt_zero _)
  | succ f ih =>
    intro tolerance coefficients control target h
    unfold ApproximatelyMultiplexZFuel ApproximatelyMultiplexZ
    cases hp : Padded (-(2 ^ control.length : ℤ)) (0 : α) coefficients with
    | error e => rfl
    | ok padded =>
      dsimp only
      cases control with
      | nil =>
        dsimp only
        split <;> rfl
      | cons c cs =>
        dsimp only
        have hlt : (Most (c :: cs)).length < f := by
          simp only [Most, List.length_dropLast, List.length_cons] at *
          omega
        rw [ih tolerance (MultiplexZCoefficients padded).1 (Most (c :: cs)) target hlt]
        cases h0 : ApproximatelyMultiplexZ tolerance (MultiplexZCoefficients padded).1
            (Most (c :: cs)) target with
        | error e => rfl
        | ok g0 =>
          dsimp only
          cases hA : AnyOutsideToleranceD tolerance (MultiplexZCoefficients padded).2 with
          | false => simp
          | true =>
            rw [ih tolerance (MultiplexZCoefficients padded).2 (Most (c :: cs)) target hlt]
            cases h1 : ApproximatelyMultiplexZ tolerance (MultiplexZCoefficients padded).2
                (Most (c :: cs)) target <;> simp

theorem diagFuel_spec {α : Type} [QMath α] (fuel : ℕ) :
    ∀ (tolerance : α) (coefficients : List α) (qubits : List ℕ),
      qubits.length < fuel →
      ApproximatelyApplyDiagonalUnitaryFuel fuel tolerance coefficients qubits =
        some (ApproximatelyApplyDiagonalUnitary tolerance coefficients qubits) := by
  induction fuel with
  | zero =>
    intro _ _ qubits h
    exact absurd h (Nat.not_lt_zero _)
  | succ f ih =>
    intro tolerance coefficients qubits h
    cases qubits with
    | nil =>
      simp [ApproximatelyApplyDiagonalUnitaryFuel, ApproximatelyApplyDiagonalUnitary]
    | cons q qs =>
      unfold ApproximatelyApplyDiagonalUnitaryFuel ApproximatelyApplyDiagonalUnitary
      cases hp : Padded (-(2 ^ (q :: qs).length : ℤ)) (0 : α) coefficients with
      | error e => rfl
      | ok padded =>
        dsimp only
        cases hz : ApproximatelyMultiplexZ tolerance (MultiplexZCoefficients padded).2
            (Most (q :: qs)) (TailD (q :: qs)) with
        | error e => rfl
        | ok gz =>
          dsimp only
          cases hl : (padded.length == 2) with
          | true =>
            split
            · split <;> rfl
            · simp_all
          | false =>
            have hlt : (Most (q :: qs)).length < f := by
              simp only [Most, List.length_dropLast, List.length_cons] at *
              omega
            rw [ih tolerance (MultiplexZCoefficients padded).1 (Most (q :: qs)) hlt]
            cases hd : ApproximatelyApplyDiagonalUnitary tolerance
                (MultiplexZCoefficients padded).1 (Most (q :: qs)) <;> simp

theorem unprepFuel_spec {α : Type} [QMath α] (fuel : ℕ) :
    ∀ (tolerance : α) (coefficients : List (ComplexPolar α)) (rngControl : QRange)
      (idxTarget : ℕ) (register : List ℕ),
      rangeLength rngControl < fuel →
      ApproximatelyUnprepareArbitraryStateFuel fuel tolerance coefficients rngControl
          idxTarget register =
        some (ApproximatelyUnprepareArbitraryState tolerance coefficients rngControl
          idxTarget register) := by
  induction fuel with
  | zero =>
    intro _ _ rngControl _ _ h
    exact absurd h (Nat.not_lt_zero _)
  | succ f ih =>
    intro tolerance coefficients rngControl idxTarget register h
    unfold ApproximatelyUnprepareArbitraryStateFuel ApproximatelyUnprepareArbitraryState
    dsimp only
    cases hz : (if AnyOutsideToleranceD tolerance
        (StatePreparationSBMComputeCoefficients coefficients).2.1 = true then
          ApproximatelyMultiplexPauli tolerance
            (StatePreparationSBMComputeCoefficients coefficients).2.1 .Z
            (sliceRange register rngControl) (register.getD idxTarget 0)
        else
          .ok []) with
    | error e => rfl
    | ok gZ =>
      dsimp only
      cases hy : (if AnyOutsideToleranceD tolerance
          (StatePreparationSBMComputeCoefficients coefficients).1 = true then
            ApproximatelyMultiplexPauli tolerance
              (StatePreparationSBMComputeCoefficients coefficients).1 .Y
              (sliceRange register rngControl) (register.getD idxTarget 0)
          else
            .ok []) with
      | error e => rfl
      | ok gY =>
        dsimp only
        cases hre : IsRangeEmpty rngControl with
        | true =>
          dsimp only
          split <;> rfl
        | false =>
          dsimp only
          cases hcp : AnyOutsideToleranceCP tolerance
              (StatePreparationSBMComputeCoefficients coefficients).2.2 with
          | false => simp
          | true =>
            have hlt : rangeLength ⟨rngControl.start + 1, rngControl.stop⟩ < f := by
              simp only [IsRangeEmpty, decide_eq_false_iff_not, not_lt] at hre
              simp only [rangeLength] at *
              omega
            rw [ih tolerance (StatePreparationSBMComputeCoefficients coefficients).2.2
              ⟨rngControl.start + 1, rngControl.stop⟩ rngControl.start register hlt]
            cases hres : ApproximatelyUnprepareArbitraryState tolerance
                (StatePreparationSBMComputeCoefficients coefficients).2.2
                ⟨rngControl.start + 1, rngControl.stop⟩ rngControl.start register <;> simp

theorem cp_too_long (tolerance : ℝ) (cs : List (ComplexPolar ℝ)) (qubits : List ℕ)
    (h : 2 ^ qubits.length < cs.length) :
    ApproximatelyPreparePureStateCP tolerance cs qubits =
      .error "Padded -- Specified output array length must be at least as long as input array length." := by
  unfold ApproximatelyPreparePureStateCP
  dsimp only
  rw [Padded_too_long _ _ _ (by simpa [Int.natAbs_pow] using h)]

/-! Claim theorems. -/

/-- C1: for every pair of polar amplitudes `a0 = (r0, t0)`, `a1 = (r1, t1)`
with `r0 ≥ 0` and `r1 ≥ 0`, `BlochSphereCoordinates(a0, a1)` returns exactly
`(ComplexPolar(√(r0²+r1²), (t0+t1)/2), t1−t0, 2·atan2(r1, r0))`; in
particular for the degenerate input `r0 = r1 = 0` it returns `theta = 0` and
`phi = 0` and does not fail (the embedding is total, and `atan2(0,0) = 0`). -/
theorem claim_C1 (r0 t0 r1 t1 : ℝ) (h0 : 0 ≤ r0) (h1 : 0 ≤ r1) :
    BlochSphereCoordinates ⟨r0, t0⟩ ⟨r1, t1⟩ =
      (⟨Real.sqrt (r0 ^ 2 + r1 ^ 2), (t0 + t1) / 2⟩, t1 - t0,
        2 * Complex.arg ⟨r0, r1⟩) ∧
    BlochSphereCoordinates (⟨0, 0⟩ : ComplexPolar ℝ) ⟨0, 0⟩ =
      ((⟨0, 0⟩ : ComplexPolar ℝ), 0, 0) := by
  constructor
  · unfold BlochSphereCoordinates AbsComplexPolar ArgComplexPolar
    dsimp only
    have hsq : QMath.sqrt (r0 * r0 + r1 * r1) = Real.sqrt (r0 ^ 2 + r1 ^ 2) := by
      show Real.sqrt (r0 * r0 + r1 * r1) = Real.sqrt (r0 ^ 2 + r1 ^ 2)
      rw [show r0 * r0 + r1 * r1 = r0 ^ 2 + r1 ^ 2 by ring]
    have hat : QMath.arcTan2 r1 r0 = Complex.arg ⟨r0, r1⟩ := rfl
    rw [hsq, hat, show (1 / 2 : ℝ) * (t0 + t1) = (t0 + t1) / 2 by ring]
  · unfold BlochSphereCoordinates AbsComplexPolar ArgComplexPolar
    dsimp only
    have hsq : QMath.sqrt ((0 : ℝ) * 0 + 0 * 0) = 0 := by
      show Real.sqrt ((0 : ℝ) * 0 + 0 * 0) = 0
      norm_num
    have hat : QMath.arcTan2 (0 : ℝ) 0 = 0 := by
      show Complex.arg ⟨0, 0⟩ = 0
      rw [show (⟨0, 0⟩ : ℂ) = 0 from rfl, Complex.arg_zero]
    rw [hsq, hat]
    norm_num

/-- Witness for C1 at the concrete input `a0 = (0, 0)`, `a1 = (1, 0)`. -/
theorem claim_C1_witness :
    ((0 : ℝ) ≤ 0 ∧ (0 : ℝ) ≤ 1) ∧
    BlochSphereCoordinates (⟨0, 0⟩ : ComplexPolar ℝ) ⟨1, 0⟩ =
      (⟨Real.sqrt (0 ^ 2 + 1 ^ 2), (0 + 0) / 2⟩, 0 - 0, 2 * Complex.arg ⟨0, 1⟩) :=
  ⟨⟨le_refl 0, zero_le_one⟩, (claim_C1 0 0 1 0 (le_refl 0) zero_le_one).1⟩

/-- C2: for every angle vector of even length `2m`, `MultiplexZCoefficients`
returns two vectors of length `m` with `even[i] = (angles[i] + angles[i+m]) / 2`
and `odd[i] = (angles[i] - angles[i+m]) / 2` for every `i < m`. -/
theorem claim_C2 (angles : List ℝ) (m : ℕ) (hm : angles.length = 2 * m) :
    ((MultiplexZCoefficients angles).1.length = m ∧
      (MultiplexZCoefficients angles).2.length = m) ∧
    ∀ i, i < m →
      (MultiplexZCoefficients angles).1.getD i 0 =
        (angles.getD i 0 + angles.getD (i + m) 0) / 2 ∧
      (MultiplexZCoefficients angles).2.getD i 0 =
        (angles.getD i 0 - angles.getD (i + m) 0) / 2 := by
  have hm2 : angles.length / 2 = m := by omega
  refine ⟨⟨by rw [multiplexZCoefficients_fst_length, hm2],
    by rw [multiplexZCoefficients_snd_length, hm2]⟩, ?_⟩
  intro i hi
  rw [multiplexZCoefficients_fst_getD angles i (by omega),
    multiplexZCoefficients_snd_getD angles i (by omega), hm2]
  constructor <;> ring

/-- Witness for C2 at the concrete angle vector `[1, 3]` (`m = 1`). -/
theorem claim_C2_witness :
    ([1, 3] : List ℝ).length = 2 * 1 ∧
    ((MultiplexZCoefficients [(1 : ℝ), 3]).1.getD 0 0 =
        (([1, 3] : List ℝ).getD 0 0 + ([1, 3] : List ℝ).getD (0 + 1) 0) / 2 ∧
      (MultiplexZCoefficients [(1 : ℝ), 3]).2.getD 0 0 =
        (([1, 3] : List ℝ).getD 0 0 - ([1, 3] : List ℝ).getD (0 + 1) 0) / 2) :=
  ⟨rfl, (claim_C2 [1, 3] 1 rfl).2 0 (by decide)⟩

/-- C3: in `ApproximatelyMultiplexZ` the recursive odd-subtree expansion is
guarded exactly by `AnyOutsideToleranceD`, which holds iff some
`|odd[i]| ≥ tolerance` (non-strict, so tolerance 0 always expands a
non-empty subtree), while the length-1 leaf emits a `Z` rotation iff
`|angle| > tolerance` strictly (so an exactly-zero leaf angle is elided even
at tolerance 0). -/
theorem claim_C3 :
    (∀ (tolerance : ℝ) (coefficients : List ℝ),
        AnyOutsideToleranceD tolerance coefficients = true ↔
          ∃ i, ∃ h : i < coefficients.length,
            tolerance ≤ |coefficients.get ⟨i, h⟩|) ∧
    (∀ coefficients : List ℝ, coefficients ≠ [] →
        AnyOutsideToleranceD (0 : ℝ) coefficients = true) ∧
    (∀ (tolerance : ℝ) (coefficients : List ℝ) (control : List ℕ) (target : ℕ)
        (g0 g1 : List (Gate ℝ)),
        control ≠ [] → coefficients.length = 2 ^ control.length →
        ApproximatelyMultiplexZ tolerance (MultiplexZCoefficients coefficients).1
            (Most control) target = .ok g0 →
        ApproximatelyMultiplexZ tolerance (MultiplexZCoefficients coefficients).2
            (Most control) target = .ok g1 →
        ApproximatelyMultiplexZ tolerance coefficients control target =
          .ok (g0 ++
            if AnyOutsideToleranceD tolerance (MultiplexZCoefficients coefficients).2 then
              withinApply [Gate.cnot (TailD control) target] g1
            else
              [])) ∧
    (∀ (tolerance a : ℝ) (target : ℕ),
        ApproximatelyMultiplexZ tolerance [a] [] target =
          .ok (if tolerance < |a| then [Gate.expZ a target] else [])) ∧
    (∀ target : ℕ, ApproximatelyMultiplexZ (0 : ℝ) [0] [] target = .ok []) := by
  refine ⟨anyOutsideToleranceD_iff, ?_, ?_, multiplexZ_leaf, ?_⟩
  · intro coefficients hne
    cases coefficients with
    | nil => exact absurd rfl hne
    | cons c cs => simp [AnyOutsideToleranceD, AbsD, abs_nonneg]
  · intro tolerance coefficients control target g0 g1 hc hlen h0 h1
    exact multiplexZ_step tolerance coefficients control target g0 g1 hc hlen h0 h1
  · intro target
    rw [multiplexZ_leaf]
    simp

/-- Witness for C3: tolerance 0 with odd vector `[0]` still expands
(hypotheses of the second and third conjuncts discharged at `[0]`, `[0, 0]`
over control `[5]`). -/
theorem claim_C3_witness :
    (([0] : List ℝ) ≠ [] ∧ AnyOutsideToleranceD (0 : ℝ) [0] = true) ∧
    (([5] : List ℕ) ≠ [] ∧ ([0, 0] : List ℝ).length = 2 ^ ([5] : List ℕ).length ∧
      ApproximatelyMultiplexZ (0 : ℝ) [0, 0] [5] 0 =
        .ok (([] : List (Gate ℝ)) ++
          if AnyOutsideToleranceD (0 : ℝ) (MultiplexZCoefficients [(0 : ℝ), 0]).2 then
            withinApply [Gate.cnot (TailD [5]) 0] []
          else
            [])) := by
  have hmc : MultiplexZCoefficients [(0 : ℝ), 0] = ([0], [0]) := by
    simp [MultiplexZCoefficients, List.range_succ, List.getD]
  have h0 : ApproximatelyMultiplexZ (0 : ℝ) (MultiplexZCoefficients [(0 : ℝ), 0]).1
      (Most [5]) 0 = .ok [] := by
    rw [hmc, show Most [5] = ([] : List ℕ) from rfl]
    exact mz_zero_tol0
  have h1 : ApproximatelyMultiplexZ (0 : ℝ) (MultiplexZCoefficients [(0 : ℝ), 0]).2
      (Most [5]) 0 = .ok [] := by
    rw [hmc, show Most [5] = ([] : List ℕ) from rfl]
    exact mz_zero_tol0
  exact ⟨⟨by simp, claim_C3.2.1 [0] (by simp)⟩,
    ⟨by simp, by simp, claim_C3.2.2.1 0 [0, 0] [5] 0 [] [] (by simp) (by simp) h0 h1⟩⟩

/-- C4: `ApproximatelyMultiplexPauli` with axis `X` wraps the Z-axis body in
`H … H` on the target, and with axis `Y` wraps it in `S⁻¹, H … H, S`
(the exact inverses in reverse order); the closing basis-change gates are
emitted even when the inner Z-axis body emits no gates at all (third
conjunct: zero angles at tolerance 0 emit only the conjugation). -/
theorem claim_C4 (tolerance : ℝ) (coefficients : List ℝ) (control : List ℕ)
    (target : ℕ) :
    (ApproximatelyMultiplexPauli tolerance coefficients .X control target =
      (ApproximatelyMultiplexZ tolerance coefficients control target).map
        (fun g => [Gate.h target] ++ g ++ [Gate.h target])) ∧
    (ApproximatelyMultiplexPauli tolerance coefficients .Y control target =
      (ApproximatelyMultiplexZ tolerance coefficients control target).map
        (fun g => [Gate.sAdj target, Gate.h target] ++ g ++
          [Gate.h target, Gate.s target])) ∧
    ApproximatelyMultiplexPauli (0 : ℝ) [0] .Y [] 0 =
      .ok [Gate.sAdj 0, Gate.h 0, Gate.h 0, Gate.s 0] := by
  refine ⟨?_, ?_, mp_y_zero_tol0⟩
  · rw [multiplexPauli_X]
    cases ApproximatelyMultiplexZ tolerance coefficients control target <;>
      simp [Except.map, withinApply, adjointGates, adjointGate]
  · rw [multiplexPauli_Y]
    cases ApproximatelyMultiplexZ tolerance coefficients control target <;>
      simp [Except.map, withinApply, adjointGates, adjointGate]

/-- C5: `ApproximatelyApplyDiagonalUnitary` on an empty qubit register fails
with the invalid-argument error for every tolerance and coefficient vector;
the `.error` result carries no gate list, so no gate is emitted. -/
theorem claim_C5 (tolerance : ℝ) (coefficients : List ℝ) :
    ApproximatelyApplyDiagonalUnitary tolerance coefficients [] =
      .error "operation ApplyDiagonalUnitary -- Number of qubits must be greater than 0." := by
  unfold ApproximatelyApplyDiagonalUnitary
  rfl

/-- C6: the state-preparation entry points fail with the invalid-argument
error of the padding helper (modelled from the spec) when the coefficient
array is longer than `2 ^ n` for an `n`-qubit register — the error result
carries no gates, so nothing is silently truncated. -/
theorem claim_C6 (tolerance : ℝ) (cs : List (ComplexPolar ℝ)) (ds : List ℝ)
    (qubits : List ℕ) (hc : 2 ^ qubits.length < cs.length)
    (hd : 2 ^ qubits.length < ds.length) :
    ApproximatelyPreparePureStateCP tolerance cs qubits =
      .error "Padded -- Specified output array length must be at least as long as input array length." ∧
    PreparePureStateD ds qubits =
      .error "Padded -- Specified output array length must be at least as long as input array length." := by
  refine ⟨cp_too_long tolerance cs qubits hc, ?_⟩
  unfold PreparePureStateD
  exact cp_too_long 0 (ds.map fromRealAmplitude) qubits (by simpa using hd)

/-- Witness for C6: three coefficients on a one-qubit register. -/
theorem claim_C6_witness :
    (2 ^ ([0] : List ℕ).length < ([⟨0, 0⟩, ⟨0, 0⟩, ⟨0, 0⟩] : List (ComplexPolar ℝ)).length ∧
      2 ^ ([0] : List ℕ).length < ([0, 0, 0] : List ℝ).length) ∧
    (ApproximatelyPreparePureStateCP (0 : ℝ) [⟨0, 0⟩, ⟨0, 0⟩, ⟨0, 0⟩] [0] =
      .error "Padded -- Specified output array length must be at least as long as input array length." ∧
    PreparePureStateD [(0 : ℝ), 0, 0] [0] =
      .error "Padded -- Specified output array length must be at least as long as input array length.") :=
  ⟨⟨by norm_num, by norm_num⟩,
    claim_C6 0 [⟨0, 0⟩, ⟨0, 0⟩, ⟨0, 0⟩] [0, 0, 0] [0] (by norm_num) (by norm_num)⟩

/-- C7 as stated is false: the synthesizer performs no tolerance validation,
so a negative tolerance does not raise an error — at tolerance `-1` with
coefficients `[(1,0), (0,0)]` on a one-qubit register the call succeeds. -/
theorem claim_C7_counterexample :
    isOkResult (ApproximatelyPreparePureStateCP (-1 : ℝ) [⟨1, 0⟩, ⟨0, 0⟩] [0]) = true := by
  rw [cp_one_zero_neg1]
  rfl

/-- C7 amended: `ApproximatelyPreparePureStateCP` does not validate the
tolerance; with the negative tolerance `-1` it succeeds and emits gates
(every tolerance comparison passes, so even zero-angle rotations are
emitted) instead of raising an invalid-argument error. -/
theorem claim_C7 :
    ApproximatelyPreparePureStateCP (-1 : ℝ) [⟨1, 0⟩, ⟨0, 0⟩] [0] =
      .ok [Gate.expI 0 [0], Gate.sAdj 0, Gate.h 0, Gate.expZ 0 0, Gate.h 0,
        Gate.s 0, Gate.expZ 0 0] :=
  cp_one_zero_neg1

/-- C8 as stated is false: preparing `c = [1, 0]` on one qubit at tolerance 0
does not emit the empty gate sequence. -/
theorem claim_C8_counterexample :
    PreparePureStateD [(1 : ℝ), 0] [0] ≠ .ok [] := by
  rw [prepare_one_zero]
  simp

/-- C8 amended: preparing `c = [1, 0]` on a one-qubit register at tolerance 0
emits exactly the Y-axis basis-change conjugation `S⁻¹, H, H, S` (the
multiplex steps are entered because the zero disentangling angles pass the
non-strict `≥ 0` test, every rotation leaf is elided by the strict `> 0`
test, and the conjugation gates are emitted around the empty body). -/
theorem claim_C8 :
    PreparePureStateD [(1 : ℝ), 0] [0] =
      .ok [Gate.sAdj 0, Gate.h 0, Gate.h 0, Gate.s 0] :=
  prepare_one_zero

/-- C9: the synthesis recursions terminate structurally — with fuel equal to
the number of control qubits (of register qubits, of control-range elements)
plus one, the fuel-indexed variants of `ApproximatelyMultiplexZ`,
`ApproximatelyApplyDiagonalUnitary` and `ApproximatelyUnprepareArbitraryState`
never run out of fuel and agree with the total functions: each recursive
call strictly decreases the measure, reaching the base case. -/
theorem claim_C9 :
    (∀ (fuel : ℕ) (tolerance : ℝ) (coefficients : List ℝ) (control : List ℕ)
        (target : ℕ), control.length < fuel →
        ApproximatelyMultiplexZFuel fuel tolerance coefficients control target =
          some (ApproximatelyMultiplexZ tolerance coefficients control target)) ∧
    (∀ (fuel : ℕ) (tolerance : ℝ) (coefficients : List ℝ) (qubits : List ℕ),
        qubits.length < fuel →
        ApproximatelyApplyDiagonalUnitaryFuel fuel tolerance coefficients qubits =
          some (ApproximatelyApplyDiagonalUnitary tolerance coefficients qubits)) ∧
    (∀ (fuel : ℕ) (tolerance : ℝ) (coefficients : List (ComplexPolar ℝ))
        (rngControl : QRange) (idxTarget : ℕ) (register : List ℕ),
        rangeLength rngControl < fuel →
        ApproximatelyUnprepareArbitraryStateFuel fuel tolerance coefficients
            rngControl idxTarget register =
          some (ApproximatelyUnprepareArbitraryState tolerance coefficients
            rngControl idxTarget register)) :=
  ⟨multiplexZFuel_spec, diagFuel_spec, unprepFuel_spec⟩

/-- Witness for C9 at concrete fuel values one above the measures. -/
theorem claim_C9_witness :
    (([5] : List ℕ).length < 2 ∧
      ApproximatelyMultiplexZFuel 2 (0 : ℝ) [0, 0] [5] 0 =
        some (ApproximatelyMultiplexZ (0 : ℝ) [0, 0] [5] 0)) ∧
    (([0] : List ℕ).length < 2 ∧
      ApproximatelyApplyDiagonalUnitaryFuel 2 (0 : ℝ) [0, 0] [0] =
        some (ApproximatelyApplyDiagonalUnitary (0 : ℝ) [0, 0] [0])) ∧
    (rangeLength ⟨1, 0⟩ < 1 ∧
      ApproximatelyUnprepareArbitraryStateFuel 1 (0 : ℝ) [⟨1, 0⟩, ⟨0, 0⟩] ⟨1, 0⟩ 0 [0] =
        some (ApproximatelyUnprepareArbitraryState (0 : ℝ) [⟨1, 0⟩, ⟨0, 0⟩] ⟨1, 0⟩ 0 [0])) :=
  ⟨⟨by decide, claim_C9.1 2 0 [0, 0] [5] 0 (by decide)⟩,
    ⟨by decide, claim_C9.2.1 2 0 [0, 0] [0] (by decide)⟩,
    ⟨by decide, claim_C9.2.2 1 0 [⟨1, 0⟩, ⟨0, 0⟩] ⟨1, 0⟩ 0 [0] (by decide)⟩⟩

/-- C10: the sum/difference split is exactly invertible over exact
arithmetic: `even[i] + odd[i] = angles[i]` and `even[i] - odd[i] = angles[i+m]`
for every `i < m` when `angles` has length `2m`. -/
theorem claim_C10 (angles : List ℝ) (m : ℕ) (hm : angles.length = 2 * m) :
    ∀ i, i < m →
      (MultiplexZCoefficients angles).1.getD i 0 +
        (MultiplexZCoefficients angles).2.getD i 0 = angles.getD i 0 ∧
      (MultiplexZCoefficients angles).1.getD i 0 -
        (MultiplexZCoefficients angles).2.getD i 0 = angles.getD (i + m) 0 := by
  intro i hi
  have hm2 : angles.length / 2 = m := by omega
  rw [multiplexZCoefficients_fst_getD angles i (by omega),
    multiplexZCoefficients_snd_getD angles i (by omega), hm2]
  constructor <;> ring

/-- Witness for C10 at the concrete angle vector `[1, 3]` (`m = 1`). -/
theorem claim_C10_witness :
    ([1, 3] : List ℝ).length = 2 * 1 ∧
    ((MultiplexZCoefficients [(1 : ℝ), 3]).1.getD 0 0 +
        (MultiplexZCoefficients [(1 : ℝ), 3]).2.getD 0 0 = ([1, 3] : List ℝ).getD 0 0 ∧
      (MultiplexZCoefficients [(1 : ℝ), 3]).1.getD 0 0 -
        (MultiplexZCoefficients [(1 : ℝ), 3]).2.getD 0 0 = ([1, 3] : List ℝ).getD (0 + 1) 0) :=
  ⟨rfl, claim_C10 [1, 3] 1 rfl 0 (by decide)⟩
